import Mathlib

/-!
Verification of the kittenExport metadata-serialization logic.

The development shallowly embeds the serialization pipeline of the add-on:
thruster/engine dictionaries, their conversion to XML element trees
(`src/utils.py` and `src/__init__.py` each carry a copy of the thruster
serializer), the `xml.etree.ElementTree` serializer as shipped with the
host's Python 3.11, the in-place pretty formatter `_indent_xml`, the legacy
`meta_dict_to_xml_str` / `parse_meta_string` pair, `sanitize_filename`, and
the selection save/restore discipline of the GLB export operator.

Conventions of the embedding:
* Python floats are modelled as real numbers; the textual rendering
  `str(x)` of a float is an abstract parameter `pyStr : ℝ → String`
  threaded through every definition that serializes numbers.
* A Python dict is modelled as a structure of `Option` fields: `none`
  means the key is absent.  Keys that may be bound to `None` or to a list
  (`location`, `rotation`, ...) have type `Option (Option (List _))`:
  the inner `none` is Python's `None`.
* Python list indexing `l[i]` is modelled as `List.getD i 0`; every claim
  exercises it in bounds only.
-/

namespace KittenExport

/-! ### Python string helpers -/

/-- Whitespace recognized by Python's `str.strip()` on ASCII text. -/
def pyWs (c : Char) : Bool :=
  c = ' ' || c = '\t' || c = '\n' || c = '\r' || c = '\x0b' || c = '\x0c'

/-- Model of Python `s.strip()` on a character list: drop leading and
trailing whitespace. -/
def pyStripChars (l : List Char) : List Char :=
  ((l.dropWhile pyWs).reverse.dropWhile pyWs).reverse

/-- Model of Python `s.replace('\n', '\r\n')` (as used by the exporters in
`src/utils.py`): every newline becomes a CR/LF pair. -/
def pyReplaceLF (l : List Char) : List Char :=
  (l.map (fun c => if c = '\n' then ['\r', '\n'] else [c])).flatten

/-- Truthiness of an optional Python string: `None` and `''` are falsy. -/
def strTruthy : Option String → Bool
  | none => false
  | some s => !s.isEmpty

/-- The condition `not text or not text.strip()` used by `_indent_xml`:
true when the value is `None`, empty, or all whitespace. -/
def textBlank : Option String → Bool
  | none => true
  | some s => s.data.all pyWs

/-- Truthiness of a Python value that is `None` or a list: `None` and `[]`
are falsy. -/
def pyListTruthy : Option (List α) → Bool
  | none => false
  | some l => !l.isEmpty

/-- Python `"  " * level` (string repetition). -/
def pyRepeat (s : String) : Nat → String
  | 0 => ""
  | n + 1 => s ++ pyRepeat s n

/-! ### The `xml.etree.ElementTree` element model

An element has a tag, ordered attributes, optional text, children and an
optional tail, exactly the fields read by the serializer and by
`_indent_xml`. -/

inductive XmlElem : Type where
  | mk (tag : String) (attribs : List (String × String)) (text : Option String)
      (children : List XmlElem) (tail : Option String) : XmlElem

def XmlElem.tag : XmlElem → String
  | .mk t _ _ _ _ => t

def XmlElem.attribs : XmlElem → List (String × String)
  | .mk _ a _ _ _ => a

def XmlElem.text : XmlElem → Option String
  | .mk _ _ tx _ _ => tx

def XmlElem.children : XmlElem → List XmlElem
  | .mk _ _ _ cs _ => cs

def XmlElem.tail : XmlElem → Option String
  | .mk _ _ _ _ tl => tl

/-- Replace the tail of an element (`elem.tail = ...`). -/
def XmlElem.withTail (tl : Option String) : XmlElem → XmlElem
  | .mk t a tx cs _ => .mk t a tx cs tl

/-- Append a child, the effect of `ET.SubElement(parent, ...)` on the
parent. -/
def XmlElem.appendChild : XmlElem → XmlElem → XmlElem
  | .mk t a tx cs tl, e => .mk t a tx (cs ++ [e]) tl

/-- Leaf element: tag and attributes only, as built by a plain
`ET.SubElement(parent, tag, k=v, ...)`. -/
def xleaf (tag : String) (attribs : List (String × String)) : XmlElem :=
  .mk tag attribs none [] none

/-! ### The ElementTree XML serializer (CPython 3.11 `_serialize_xml`,
`short_empty_elements=True`; `tostring(..., encoding='utf-8')` adds no
XML declaration for utf-8) -/

/-- CPython `_escape_cdata`: `&`, `<`, `>` become entities. -/
def escCdataChar (c : Char) : List Char :=
  if c = '&' then "&amp;".data
  else if c = '<' then "&lt;".data
  else if c = '>' then "&gt;".data
  else [c]

def escapeCdata (s : String) : List Char :=
  (s.data.map escCdataChar).flatten

/-- CPython `_escape_attrib`: additionally escapes `"` and whitespace
control characters. -/
def escAttribChar (c : Char) : List Char :=
  if c = '&' then "&amp;".data
  else if c = '<' then "&lt;".data
  else if c = '>' then "&gt;".data
  else if c = '"' then "&quot;".data
  else if c = '\r' then "&#13;".data
  else if c = '\n' then "&#10;".data
  else if c = '\t' then "&#09;".data
  else [c]

def escapeAttrib (s : String) : List Char :=
  (s.data.map escAttribChar).flatten

/-- Serialized attribute list: ` k="v"` for each attribute, in order. -/
def attribsChars (attribs : List (String × String)) : List Char :=
  (attribs.map (fun kv => ((' ' :: kv.1.data) ++ ('=' :: '"' :: escapeAttrib kv.2)) ++ ['"'])).flatten

/-- Text or tail as written by the serializer: skipped when `None` or
empty (`if text: write(escape_cdata(text))`). -/
def optTextChars : Option String → List Char
  | none => []
  | some s => if s.isEmpty then [] else escapeCdata s

mutual
/-- CPython `_serialize_xml` on an element: `<tag attrs>text children</tag>`,
or the short form `<tag attrs />` when there is no (truthy) text and no
children, followed by the tail. -/
def serializeElem : XmlElem → List Char
  | .mk tag attribs text children tail =>
    (('<' :: tag.data) ++ attribsChars attribs)
    ++ (if strTruthy text || !children.isEmpty then
          (('>' :: optTextChars text) ++ serializeList children) ++ (('<' :: '/' :: tag.data) ++ ['>'])
        else [' ', '/', '>'])
    ++ optTextChars tail

def serializeList : List XmlElem → List Char
  | [] => []
  | e :: es => serializeElem e ++ serializeList es
end

/-! ### The repository's `_indent_xml` pretty formatter (`src/utils.py`) -/

/-- Update the last element of a list, used for the trailing
`elem[-1].tail = indent` adjustment. -/
def mapLast (f : XmlElem → XmlElem) : List XmlElem → List XmlElem
  | [] => []
  | [e] => [f e]
  | e :: es => e :: mapLast f es

mutual
/-- Functional rendering of `_indent_xml(elem, level)`: sets blank texts to
the indentation of the next level, gives every child a blank tail the same
indentation, recurses, and finally trims the last child's tail to the
current indentation. -/
def indentElem (level : Nat) : XmlElem → XmlElem
  | .mk tag attribs text children tail =>
    let indent : String := "\n" ++ pyRepeat "  " level
    if children.isEmpty then
      .mk tag attribs (if textBlank text then some "" else text) children tail
    else
      let text' := if textBlank text then some (indent ++ "  ") else text
      let cs := indentChildren level children
      let cs' := mapLast (fun e => if strTruthy e.tail then e.withTail (some indent) else e) cs
      .mk tag attribs text' cs' tail

def indentChildren (level : Nat) : List XmlElem → List XmlElem
  | [] => []
  | c :: cs =>
    let indent : String := "\n" ++ pyRepeat "  " level
    let c' := indentElem (level + 1) c
    let c'' := if textBlank c'.tail then c'.withTail (some (indent ++ "  ")) else c'
    c'' :: indentChildren level cs
end

/-! ### Euler rotation (Blender `mathutils`, rotation order `'XYZ'`)

`mathutils.Euler((rx, ry, rz), 'XYZ').to_matrix()` applies the X rotation
first, then Y, then Z: the matrix is `Rz · Ry · Rx`.  The same composite
is the reference rotation of the specification's claims. -/

noncomputable def rotX (a : ℝ) (v : ℝ × ℝ × ℝ) : ℝ × ℝ × ℝ :=
  (v.1, Real.cos a * v.2.1 - Real.sin a * v.2.2, Real.sin a * v.2.1 + Real.cos a * v.2.2)

noncomputable def rotY (a : ℝ) (v : ℝ × ℝ × ℝ) : ℝ × ℝ × ℝ :=
  (Real.cos a * v.1 + Real.sin a * v.2.2, v.2.1, -Real.sin a * v.1 + Real.cos a * v.2.2)

noncomputable def rotZ (a : ℝ) (v : ℝ × ℝ × ℝ) : ℝ × ℝ × ℝ :=
  (Real.cos a * v.1 - Real.sin a * v.2.1, Real.sin a * v.1 + Real.cos a * v.2.1, v.2.2)

/-- Application of the `'XYZ'`-order Euler rotation matrix to a vector. -/
noncomputable def rotXYZ (rx ry rz : ℝ) (v : ℝ × ℝ × ℝ) : ℝ × ℝ × ℝ :=
  rotZ rz (rotY ry (rotX rx v))

/-- The trigonometric direction formula shared by the engine serializers of
`src/utils.py` and `src/__init__.py` and by the `__init__.py` thruster
serializer: `[cos_y * cos_z, cos_y * sin_z, sin_y]`. -/
noncomputable def trigDir (ry rz : ℝ) : ℝ × ℝ × ℝ :=
  (Real.cos ry * Real.cos rz, Real.cos ry * Real.sin rz, Real.sin ry)

/-! ### Thruster dictionaries and their XML elements -/

/-- A thruster dict as assembled by the collecting operators: every key is
optional, and the vector-valued keys may be bound to Python `None`. -/
structure ThrusterData where
  name : Option String
  location : Option (Option (List ℝ))
  fx_location : Option (Option (List ℝ))
  rotation : Option (Option (List ℝ))
  control_map_translation : Option (Option (List Bool))
  control_map_rotation : Option (Option (List Bool))
  thrust_n : Option ℝ
  specific_impulse_seconds : Option ℝ
  minimum_pulse_time_seconds : Option ℝ
  volumetric_exhaust_id : Option String
  sound_event_on : Option String

/-- `final_loc` of `_thruster_dict_to_xml_element`: the elementwise sum of
`location` and `fx_location` when both are truthy, otherwise the
unmodified `location` value. -/
def thrusterFinalLoc (d : ThrusterData) : Option (List ℝ) :=
  let loc := d.location.getD (some [0, 0, 0])
  let fx := d.fx_location.getD (some [0, 0, 0])
  if pyListTruthy loc && pyListTruthy fx then
    let ll := loc.getD []
    let ff := fx.getD []
    some [ll.getD 0 0 + ff.getD 0 0, ll.getD 1 0 + ff.getD 1 0, ll.getD 2 0 + ff.getD 2 0]
  else loc

/-- The conditional `Location` subelement: present exactly when `final_loc`
is truthy. -/
def thrusterLocPart (pyStr : ℝ → String) (d : ThrusterData) : List XmlElem :=
  let fl := thrusterFinalLoc d
  if pyListTruthy fl then
    let l := fl.getD []
    [xleaf "Location" [("X", pyStr (l.getD 0 0)), ("Y", pyStr (l.getD 1 0)), ("Z", pyStr (l.getD 2 0))]]
  else []

/-- Exhaust direction of the `src/utils.py` thruster serializer: the local
`+Z` axis rotated by the `'XYZ'` Euler angles via `mathutils` and
normalized; `mathutils.Euler` raises on a list whose length is not 3,
which the surrounding `except` turns into the `[1, 0, 0]` fallback, also
used when `rotation` is falsy. -/
noncomputable def thrusterExDirUtils (d : ThrusterData) : ℝ × ℝ × ℝ :=
  let rotation := d.rotation.getD (some [0, 0, 0])
  if pyListTruthy rotation then
    match rotation.getD [] with
    | [rx, ry, rz] =>
      let dv := rotXYZ rx ry rz (0, 0, 1)
      let lsq := dv.1 ^ 2 + dv.2.1 ^ 2 + dv.2.2 ^ 2
      if 0 < lsq then
        let len := Real.sqrt lsq
        (dv.1 / len, dv.2.1 / len, dv.2.2 / len)
      else dv
    | _ => (1, 0, 0)
  else (1, 0, 0)

/-- Exhaust direction of the `src/__init__.py` thruster serializer: the
trigonometric formula on `rotation[1]`, `rotation[2]` (the `cos_x`/`sin_x`
values it also computes are unused). -/
noncomputable def thrusterExDirInit (d : ThrusterData) : ℝ × ℝ × ℝ :=
  let rotation := d.rotation.getD (some [0, 0, 0])
  if pyListTruthy rotation then
    let r := rotation.getD []
    trigDir (r.getD 1 0) (r.getD 2 0)
  else (1, 0, 0)

/-- The `ExhaustDirection` leaf for a computed direction vector. -/
def exhaustElem (pyStr : ℝ → String) (v : ℝ × ℝ × ℝ) : XmlElem :=
  xleaf "ExhaustDirection" [("X", pyStr v.1), ("Y", pyStr v.2.1), ("Z", pyStr v.2.2)]

def transLabels : List String :=
  ["TranslateForward", "TranslateBackward", "TranslateLeft", "TranslateRight", "TranslateUp", "TranslateDown"]

def rotLabels : List String :=
  ["PitchUp", "PitchDown", "RollLeft", "RollRight", "YawLeft", "YawRight"]

/-- The loop `for i, enabled in enumerate(flags): if enabled and
i < len(labels): parts.append(labels[i])`, starting at index `i`. -/
def csvCollect (labels : List String) (i : Nat) : List Bool → List String
  | [] => []
  | b :: bs =>
    (if b ∧ i < labels.length then (labels.get? i).toList else []) ++ csvCollect labels (i + 1) bs

/-- The `CSV` attribute of the `ControlMap` element. -/
def controlMapCSV (d : ThrusterData) : String :=
  let trans := d.control_map_translation.getD (some [])
  let rot := d.control_map_rotation.getD (some [])
  let parts :=
    (if pyListTruthy trans then csvCollect transLabels 0 (trans.getD []) else [])
    ++ (if pyListTruthy rot then csvCollect rotLabels 0 (rot.getD []) else [])
  if parts.isEmpty then "" else String.intercalate "," parts

/-- The fixed trailing attribute elements of a thruster (`Thrust`,
`SpecificImpulse`, `MinimumPulseTime`, `VolumetricExhaust`, `SoundEvent`),
identical in both copies of the serializer. -/
def thrusterAttrElems (pyStr : ℝ → String) (d : ThrusterData) : List XmlElem :=
  [xleaf "Thrust" [("N", pyStr (d.thrust_n.getD 40.0))],
   xleaf "SpecificImpulse" [("Seconds", pyStr (d.specific_impulse_seconds.getD 220.0))],
   xleaf "MinimumPulseTime" [("Seconds", pyStr (d.minimum_pulse_time_seconds.getD 0.008))],
   xleaf "VolumetricExhaust" [("Id", d.volumetric_exhaust_id.getD "ApolloRCS")],
   xleaf "SoundEvent" [("Action", "On"), ("SoundId", d.sound_event_on.getD "DefaultRcsThruster")]]

/-- The `Thruster` element built by `_thruster_dict_to_xml_element` of
`src/utils.py`. -/
noncomputable def thrusterElemUtils (pyStr : ℝ → String) (d : ThrusterData) : XmlElem :=
  .mk "Thruster" [("Id", d.name.getD "Unnamed")] none
    (thrusterLocPart pyStr d
      ++ [exhaustElem pyStr (thrusterExDirUtils d), xleaf "ControlMap" [("CSV", controlMapCSV d)]]
      ++ thrusterAttrElems pyStr d)
    none

/-- The `Thruster` element built by `_thruster_dict_to_xml_element` of
`src/__init__.py`; it differs from the `utils` copy only in the exhaust
direction computation. -/
noncomputable def thrusterElemInit (pyStr : ℝ → String) (d : ThrusterData) : XmlElem :=
  .mk "Thruster" [("Id", d.name.getD "Unnamed")] none
    (thrusterLocPart pyStr d
      ++ [exhaustElem pyStr (thrusterExDirInit d), xleaf "ControlMap" [("CSV", controlMapCSV d)]]
      ++ thrusterAttrElems pyStr d)
    none

/-- Root built by `thrusters_list_to_xml_str` (`src/utils.py`): an element
`Thrusters` to which each dict's `Thruster` element is appended in order. -/
noncomputable def buildThrustersRootUtils (pyStr : ℝ → String) (l : List ThrusterData) : XmlElem :=
  l.foldl (fun r d => r.appendChild (thrusterElemUtils pyStr d)) (.mk "Thrusters" [] none [] none)

/-- Root built by `thrusters_list_to_xml_str` (`src/__init__.py`). -/
noncomputable def buildThrustersRootInit (pyStr : ℝ → String) (l : List ThrusterData) : XmlElem :=
  l.foldl (fun r d => r.appendChild (thrusterElemInit pyStr d)) (.mk "Thrusters" [] none [] none)

/-- `thrusters_list_to_xml_str` of `src/utils.py`: build the tree, indent
it in place, serialize, and replace every LF with CR/LF. -/
noncomputable def thrusters_list_to_xml_str_utils (pyStr : ℝ → String) (l : List ThrusterData) : String :=
  String.mk (pyReplaceLF (serializeElem (indentElem 0 (buildThrustersRootUtils pyStr l))))

/-- `thrusters_list_to_xml_str` of `src/__init__.py`: serialize the tree
as built, with no indentation and no CR/LF conversion. -/
noncomputable def thrusters_list_to_xml_str_init (pyStr : ℝ → String) (l : List ThrusterData) : String :=
  String.mk (serializeElem (buildThrustersRootInit pyStr l))

/-! ### Engine dictionaries and their XML elements -/

/-- An engine dict as assembled by the collecting operators. -/
structure EngineData where
  name : Option String
  location : Option (Option (List ℝ))
  rotation : Option (Option (List ℝ))
  thrust_kn : Option ℝ
  specific_impulse_seconds : Option ℝ
  minimum_throttle : Option ℝ
  volumetric_exhaust_id : Option String
  sound_event_action_on : Option String

/-- Exhaust direction of `_engine_dict_to_xml_element` (identical in
`src/utils.py` and `src/__init__.py`): the trigonometric formula on
`rotation[1]`, `rotation[2]`, with the `[1, 0, 0]` default for a falsy
`rotation`. -/
noncomputable def engineExDir (d : EngineData) : ℝ × ℝ × ℝ :=
  let rotation := d.rotation.getD (some [0, 0, 0])
  if pyListTruthy rotation then
    let r := rotation.getD []
    trigDir (r.getD 1 0) (r.getD 2 0)
  else (1, 0, 0)

/-- The conditional `Location` subelement of an engine. -/
def engineLocPart (pyStr : ℝ → String) (d : EngineData) : List XmlElem :=
  let loc := d.location.getD (some [0, 0, 0])
  if pyListTruthy loc then
    let l := loc.getD []
    [xleaf "Location" [("X", pyStr (l.getD 0 0)), ("Y", pyStr (l.getD 1 0)), ("Z", pyStr (l.getD 2 0))]]
  else []

/-- The `Engine` element built by `_engine_dict_to_xml_element` (the same
code in both modules). -/
noncomputable def engineElem (pyStr : ℝ → String) (d : EngineData) : XmlElem :=
  .mk "Engine" [("Id", d.name.getD "Unnamed")] none
    (engineLocPart pyStr d
      ++ [exhaustElem pyStr (engineExDir d),
          xleaf "Thrust" [("N", pyStr (d.thrust_kn.getD 650.0 * 1000.0))],
          xleaf "SpecificImpulse" [("Seconds", pyStr (d.specific_impulse_seconds.getD 452.0))],
          xleaf "MinimumThrottle" [("Value", pyStr (d.minimum_throttle.getD 0.05))],
          xleaf "VolumetricExhaust" [("Id", d.volumetric_exhaust_id.getD "ApolloCSM")],
          xleaf "SoundEvent" [("Action", "On"), ("SoundId", d.sound_event_action_on.getD "DefaultEngineSoundBehavior")]])
    none

/-! ### Baked metadata: `meta_dict_to_xml_str` and `parse_meta_string` -/

/-- A scalar Python value appearing in a baked metadata dict (the bake
operators store strings, floats, booleans, `None`, and flat lists of
these). -/
inductive PyScalar : Type where
  | pstr (s : String)
  | pfloat (r : ℝ)
  | pbool (b : Bool)
  | pnone

/-- `str(v)` for a scalar metadata value. -/
def pyScalarStr (pyStr : ℝ → String) : PyScalar → String
  | .pstr s => s
  | .pfloat r => pyStr r
  | .pbool b => if b then "True" else "False"
  | .pnone => "None"

/-- A baked metadata dict value: a scalar, or a list/tuple of scalars
(the `isinstance(v, (list, tuple))` branch). -/
inductive PyMetaVal : Type where
  | scalar (v : PyScalar)
  | list (items : List PyScalar)

/-- `meta_dict_to_xml_str`: a root element `metadata` with one child per
key in dict order; list values get one `item` grandchild per element,
scalar values become the child's text.  Serialized with no declaration and
no indentation. -/
noncomputable def metaRoot (pyStr : ℝ → String) (d : List (String × PyMetaVal)) : XmlElem :=
  .mk "metadata" [] none
    (d.map (fun kv =>
      match kv.2 with
      | .list items =>
        .mk kv.1 [] none (items.map (fun it => XmlElem.mk "item" [] (some (pyScalarStr pyStr it)) [] none)) none
      | .scalar v => .mk kv.1 [] (some (pyScalarStr pyStr v)) [] none))
    none

noncomputable def meta_dict_to_xml_str (pyStr : ℝ → String) (d : List (String × PyMetaVal)) : String :=
  String.mk (serializeElem (metaRoot pyStr d))

/-- Characters ending an XML tag name in a start tag. -/
def xmlNameStop (c : Char) : Bool :=
  c = ' ' || c = '\t' || c = '\n' || c = '\r' || c = '>' || c = '/'

/-- Drop everything up to and including the first `?>`. -/
def dropPIEnd : List Char → List Char
  | [] => []
  | a :: r => if a = '?' ∧ r.head? = some '>' then r.tail else dropPIEnd r

/-- Skip leading whitespace and an optional `<?...?>` prolog, as the expat
parser underlying `ET.fromstring` does before the root start tag. -/
def skipProlog (s : List Char) : List Char :=
  let s0 := s.dropWhile pyWs
  match s0 with
  | a :: b :: r => if a = '<' ∧ b = '?' then (dropPIEnd r).dropWhile pyWs else s0
  | _ => s0

/-- Model of `ET.fromstring` restricted to the root tag of the document:
`parse_meta_string` inspects nothing else before deciding between the
`thruster`/`thrusters` conversions and the JSON fallback. -/
def et_root_tag (s : List Char) : Option (List Char) :=
  match skipProlog s with
  | a :: r =>
    if a = '<' then
      let name := r.takeWhile (fun c => !xmlNameStop c)
      if name.isEmpty then none else some name
    else none
  | [] => none

/-- Shape of a value produced by `json.loads`, as far as the
`isinstance(parsed, dict)` / `isinstance(parsed, list)` dispatch of the
GLB exporter observes it. -/
inductive PyJson : Type where
  | jdict
  | jlist
  | jother

/-- Result of `parse_meta_string`: the XML branches record the document
handed to `_element_to_dict` (a dict for root tag `thruster`, a list of
dicts for `thrusters`), the fallback records the JSON value. -/
inductive ParsedMeta : Type where
  | xmlThrusterDict (doc : String)
  | xmlThrusterList (doc : String)
  | fromJson (j : PyJson)

/-- `parse_meta_string`: falsy input gives `None`; otherwise the stripped
string is tried as XML when it starts with `<` — only root tags
`thruster` and `thrusters` return there, any other root tag or parse
failure falls through — and finally as JSON, with `None` on failure.
`json_loads` abstracts Python's `json.loads` (`none` models the raised
`JSONDecodeError`). -/
def parse_meta_string (json_loads : String → Option PyJson) (s : String) : Option ParsedMeta :=
  if s.data.isEmpty then none
  else
    let s' := String.mk (pyStripChars s.data)
    if s'.data.head? = some '<' then
      match et_root_tag s'.data with
      | some t =>
        if String.mk t = "thruster" then some (.xmlThrusterDict s')
        else if String.mk t = "thrusters" then some (.xmlThrusterList s')
        else (json_loads s').map .fromJson
      | none => (json_loads s').map .fromJson
    else (json_loads s').map .fromJson

/-- Python `isinstance(parsed, dict)` on a `parse_meta_string` result. -/
def ParsedMeta.isDictLike : ParsedMeta → Bool
  | .xmlThrusterDict _ => true
  | .fromJson .jdict => true
  | _ => false

/-- Python `isinstance(parsed, list)` on a `parse_meta_string` result. -/
def ParsedMeta.isListLike : ParsedMeta → Bool
  | .xmlThrusterList _ => true
  | .fromJson .jlist => true
  | _ => false

/-- Where one thruster object's metadata entry comes from in the GLB
export loop of `OBJECT_OT_export_glb_with_meta.execute`: the baked
`_thruster_meta` string when it parses to a dict or list, else the live
`thruster_props` when present, else nothing. -/
inductive MetaSource : Type where
  | fromBaked (p : ParsedMeta)
  | fromProps
  | skipped

/-- The body of the metadata loop for a single object: `jm` truthy and
parsed to a dict or list short-circuits; otherwise the live properties
are read. -/
def glbMetaContribution (json_loads : String → Option PyJson)
    (bakedMeta : Option String) (hasProps : Bool) : MetaSource :=
  let viaProps := if hasProps then MetaSource.fromProps else MetaSource.skipped
  match bakedMeta with
  | some jm =>
    if !jm.data.isEmpty then
      match parse_meta_string json_loads jm with
      | some p => if p.isDictLike then .fromBaked p else if p.isListLike then .fromBaked p else viaProps
      | none => viaProps
    else viaProps
  | none => viaProps

/-! ### `sanitize_filename` (`src/utils.py`) -/

/-- The whitelist `[A-Za-z0-9._-]`. -/
def allowedFilenameChar (c : Char) : Bool :=
  ('A' ≤ c && c ≤ 'Z') || ('a' ≤ c && c ≤ 'z') || ('0' ≤ c && c ≤ '9') || c = '.' || c = '_' || c = '-'

/-- `sanitize_filename`: empty input gives `unnamed`; otherwise disallowed
characters become `_`, leading dots are stripped, an empty remainder
becomes `unnamed`, and the result is truncated to 128 characters. -/
def sanitize_filename (name : String) : String :=
  if name.isEmpty then "unnamed"
  else
    let cleaned := name.data.map (fun c => if allowedFilenameChar c then c else '_')
    let cleaned := cleaned.dropWhile (fun c => c = '.')
    let cleaned := if cleaned.isEmpty then "unnamed".data else cleaned
    let cleaned := if 128 < cleaned.length then cleaned.take 128 else cleaned
    String.mk cleaned

/-! ### Selection state of the GLB export operator

`OBJECT_OT_export_glb_with_meta.execute` (`src/operators.py`, and the
copy in `src/__init__.py`) saves the selected objects and the active
object, reselects only non-thruster objects for the glTF export, and in a
`finally` block deselects everything, reselects the saved objects and
restores the saved active object.  Objects are modelled by naturals, the
selection by a `Finset`; the host's selection primitives are assumed to
succeed (each is wrapped in `try/except` in the source), and the success
of the glTF export and of the metadata file write are abstract flags. -/

structure EditorState where
  selected : Finset ℕ
  active : Option ℕ

inductive GlbResult : Type where
  | cancelled
  | finishedWarn
  | finished

/-- Outcome of the operator body: the editor state after `execute`
returns, and the reported result. -/
def glbExportExecute (sceneObjs : List ℕ) (isThruster : ℕ → Bool)
    (exportOk writeOk : Bool) (s : EditorState) : EditorState × GlbResult :=
  let thrusters := sceneObjs.filter isThruster
  let nonThrusters := sceneObjs.filter (fun o => !thrusters.contains o)
  let prevSelected := s.selected
  let prevActive := s.active
  -- try: deselect all, select the non-thruster objects, activate the first
  let s1 : EditorState := { selected := ∅, active := s.active }
  let s2 : EditorState := { s1 with selected := s1.selected ∪ nonThrusters.toFinset }
  let s3 : EditorState :=
    match nonThrusters with
    | [] => s2
    | o :: _ => { s2 with active := some o }
  let res : GlbResult :=
    if exportOk then (if writeOk then .finished else .finishedWarn) else .cancelled
  -- finally: deselect all, reselect the saved objects, restore the active
  let s4 : EditorState := { s3 with selected := (∅ : Finset ℕ) ∪ prevSelected }
  let s5 : EditorState := if prevActive.isSome then { s4 with active := prevActive } else s4
  (s5, res)

/-! ### Generic list lemmas -/

theorem dropWhile_eq_self_of_head {α : Type} (p : α → Bool) (l : List α)
    (h : ∀ c, l.head? = some c → p c = false) : l.dropWhile p = l := by
  cases l with
  | nil => rfl
  | cons a t => simp [List.dropWhile, h a rfl]

theorem head?_dropWhile_not {α : Type} (p : α → Bool) (l : List α) :
    ∀ c, (l.dropWhile p).head? = some c → p c = false := by
  induction l with
  | nil => simp
  | cons a t ih =>
    intro c h
    by_cases hp : p a
    · exact ih c (by simpa [List.dropWhile, hp] using h)
    · have hac : a = c := by simpa [List.dropWhile, hp] using h
      subst hac
      simpa using hp

/-! ### Claim C10: the engine direction formula is a unit vector and does
not depend on the X Euler angle -/

/-- Engine dict holding only a rotation triple, for stating claims about
the direction computation. -/
noncomputable def engineDictRot (rx ry rz : ℝ) : EngineData :=
  ⟨none, some none, some (some [rx, ry, rz]), none, none, none, none, none⟩

/-- C10: in exact real arithmetic the exhaust direction computed by
`_engine_dict_to_xml_element` for Euler angles `(rx, ry, rz)` has squared
length exactly 1, and it does not depend on `rx`. -/
theorem C10_engine_direction_unit_and_rx_free (rx ry rz : ℝ) :
    ((engineExDir (engineDictRot rx ry rz)).1 ^ 2
      + (engineExDir (engineDictRot rx ry rz)).2.1 ^ 2
      + (engineExDir (engineDictRot rx ry rz)).2.2 ^ 2 = 1)
    ∧ ∀ rx' : ℝ, engineExDir (engineDictRot rx' ry rz) = engineExDir (engineDictRot rx ry rz) := by
  have hdir : ∀ a : ℝ, engineExDir (engineDictRot a ry rz) = trigDir ry rz := by
    intro a
    simp [engineExDir, engineDictRot, pyListTruthy]
  constructor
  · rw [hdir rx]
    simp only [trigDir]
    nlinarith [Real.sin_sq_add_cos_sq ry, Real.sin_sq_add_cos_sq rz]
  · intro rx'
    rw [hdir rx', hdir rx]

/-! ### Claim C8: the GLB export operator restores the selection -/

/-- C8: after `OBJECT_OT_export_glb_with_meta.execute` returns — whether
the glTF export and the metadata write succeed or fail — the set of
selected objects is exactly the set selected before the call, and if an
object was active before the call it is active again. -/
theorem C8_glb_export_restores_selection (sceneObjs : List ℕ) (isThruster : ℕ → Bool)
    (exportOk writeOk : Bool) (s : EditorState) :
    ((glbExportExecute sceneObjs isThruster exportOk writeOk s).1.selected = s.selected)
    ∧ ∀ a : ℕ, s.active = some a →
        (glbExportExecute sceneObjs isThruster exportOk writeOk s).1.active = some a := by
  unfold glbExportExecute
  dsimp only
  generalize sceneObjs.filter (fun o => !(sceneObjs.filter isThruster).contains o) = nt
  refine ⟨?_, ?_⟩
  · cases nt with
    | nil => by_cases ha : s.active.isSome <;> simp [ha]
    | cons o t => by_cases ha : s.active.isSome <;> simp [ha]
  · intro a ha
    cases nt with
    | nil => simp [ha]
    | cons o t => simp [ha]

/-- C8 witness: a concrete failing export over a two-object scene with one
thruster restores the selection `{2}` and the active object `2`. -/
theorem C8_glb_export_restores_selection_witness :
    ((glbExportExecute [1, 2] (fun o => o == 1) false true ⟨{2}, some 2⟩).1.selected = {2})
    ∧ (glbExportExecute [1, 2] (fun o => o == 1) false true ⟨{2}, some 2⟩).1.active = some 2 :=
  ⟨(C8_glb_export_restores_selection [1, 2] (fun o => o == 1) false true ⟨{2}, some 2⟩).1,
   (C8_glb_export_restores_selection [1, 2] (fun o => o == 1) false true ⟨{2}, some 2⟩).2 2 rfl⟩

/-! ### Claim C9: guarantees of `sanitize_filename` -/

/-- C9 counterexample: the claim says a string of only disallowed
characters maps to `unnamed`, but `sanitize_filename "/"` is `"_"` —
every disallowed character is replaced by the whitelisted underscore. -/
theorem C9_sanitize_filename_counterexample :
    sanitize_filename "/" = "_"
    ∧ ("/" : String) ≠ ""
    ∧ ("/".data.all (fun c => !allowedFilenameChar c)) = true
    ∧ ("_" : String) ≠ "unnamed" := by
  refine ⟨rfl, by decide, by decide, by decide⟩

/-- C9 (amended): `sanitize_filename` always returns a non-empty string of
at most 128 whitelisted characters not starting with a dot; the empty
string and strings of only dots map to `unnamed` (strings of other
disallowed characters map to underscores instead). -/
theorem C9_sanitize_filename_guarantees (s : String) :
    sanitize_filename s ≠ ""
    ∧ (sanitize_filename s).length ≤ 128
    ∧ ((sanitize_filename s).data.all allowedFilenameChar) = true
    ∧ (∀ c, (sanitize_filename s).data.head? = some c → c ≠ '.')
    ∧ (s.data.all (fun c => c = '.') = true → sanitize_filename s = "unnamed") := by
  by_cases hs : s.isEmpty = true
  · have h1 : sanitize_filename s = "unnamed" := by simp [sanitize_filename, hs]
    rw [h1]
    refine ⟨by decide, by decide, by decide, ?_, fun _ => rfl⟩
    intro c h
    have hcu : c = 'u' := by simpa using h.symm
    subst hcu; decide
  · have heq : sanitize_filename s = String.mk
        (if 128 < (if ((s.data.map (fun c => if allowedFilenameChar c then c else '_')).dropWhile
              (fun c => c = '.')).isEmpty then "unnamed".data
            else (s.data.map (fun c => if allowedFilenameChar c then c else '_')).dropWhile
              (fun c => c = '.')).length then
          (if ((s.data.map (fun c => if allowedFilenameChar c then c else '_')).dropWhile
              (fun c => c = '.')).isEmpty then "unnamed".data
            else (s.data.map (fun c => if allowedFilenameChar c then c else '_')).dropWhile
              (fun c => c = '.')).take 128
        else (if ((s.data.map (fun c => if allowedFilenameChar c then c else '_')).dropWhile
              (fun c => c = '.')).isEmpty then "unnamed".data
            else (s.data.map (fun c => if allowedFilenameChar c then c else '_')).dropWhile
              (fun c => c = '.'))) := by
      simp only [sanitize_filename, hs, if_false, Bool.false_eq_true]
    set c1 : List Char := s.data.map (fun c => if allowedFilenameChar c then c else '_') with hc1
    set c2 : List Char := c1.dropWhile (fun c => c = '.') with hc2
    set c3 : List Char := if c2.isEmpty then "unnamed".data else c2 with hc3
    set c4 : List Char := if 128 < c3.length then c3.take 128 else c3 with hc4
    have hall1 : c1.all allowedFilenameChar = true := by
      rw [hc1, List.all_map]
      refine List.all_eq_true.2 fun c _ => ?_
      by_cases h : allowedFilenameChar c
      · simp only [Function.comp]
        rw [if_pos h]
        exact h
      · simp only [Function.comp]
        rw [if_neg h]
        decide
    have hall2 : c2.all allowedFilenameChar = true := by
      refine List.all_eq_true.2 fun c hm => ?_
      refine List.all_eq_true.1 hall1 c ?_
      rw [hc2] at hm
      exact (List.dropWhile_sublist _).subset hm
    have hall3 : c3.all allowedFilenameChar = true := by
      rw [hc3]
      by_cases h : c2.isEmpty
      · rw [if_pos h]; decide
      · rw [if_neg h]; exact hall2
    have h3ne : c3 ≠ [] := by
      rw [hc3]
      by_cases h : c2.isEmpty
      · rw [if_pos h]; decide
      · rw [if_neg h]
        simpa [List.isEmpty_iff] using h
    have h4ne : c4 ≠ [] := by
      rw [hc4]
      by_cases h : 128 < c3.length
      · rw [if_pos h]
        intro hnil
        have hlen : min 128 c3.length = 0 := by
          simpa using congrArg List.length hnil
        omega
      · rw [if_neg h]; exact h3ne
    have hall4 : c4.all allowedFilenameChar = true := by
      rw [hc4]
      by_cases h : 128 < c3.length
      · rw [if_pos h]
        exact List.all_eq_true.2 fun c hm => List.all_eq_true.1 hall3 c (List.take_subset _ _ hm)
      · rw [if_neg h]; exact hall3
    have hhead : c4.head? = c3.head? := by
      rw [hc4]
      by_cases h : 128 < c3.length
      · rw [if_pos h, List.head?_take, if_neg (by omega)]
      · rw [if_neg h]
    refine ⟨?_, ?_, ?_, ?_, ?_⟩
    · rw [heq]
      intro hcon
      exact h4ne (congrArg String.data hcon)
    · rw [heq]
      show c4.length ≤ 128
      rw [hc4]
      by_cases h : 128 < c3.length
      · rw [if_pos h]; simp
      · rw [if_neg h]; omega
    · rw [heq]; exact hall4
    · rw [heq]
      show ∀ c, c4.head? = some c → c ≠ '.'
      intro c h
      rw [hhead, hc3] at h
      by_cases he : c2.isEmpty
      · rw [if_pos he] at h
        have hcu : c = 'u' := by simpa using h.symm
        subst hcu; decide
      · rw [if_neg he] at h
        have hnd := head?_dropWhile_not (fun c => decide (c = '.')) c1 c (by rw [hc2] at h; exact h)
        simpa using hnd
    · intro hd
      have hmapid : c1 = s.data := by
        rw [hc1]
        have hcongr : s.data.map (fun c => if allowedFilenameChar c then c else '_') = s.data.map id := by
          refine List.map_congr_left fun a ha => ?_
          have hadot : a = '.' := by simpa using List.all_eq_true.1 hd a ha
          subst hadot; decide
        rw [hcongr, List.map_id]
      have h2nil : c2 = [] := by
        rw [hc2, hmapid]
        refine List.dropWhile_eq_nil_iff.2 fun x hx => ?_
        simpa using List.all_eq_true.1 hd x hx
      have h3eq : c3 = "unnamed".data := by
        rw [hc3, h2nil]; rfl
      rw [heq]
      show String.mk c4 = "unnamed"
      rw [hc4, h3eq]
      rw [if_neg (by decide)]

/-- C9 witness: the all-dots input `".."` is mapped to `unnamed`, of
length at most 128. -/
theorem C9_sanitize_filename_guarantees_witness :
    sanitize_filename ".." = "unnamed" ∧ (sanitize_filename "..").length ≤ 128 :=
  ⟨(C9_sanitize_filename_guarantees "..").2.2.2.2 (by decide),
   (C9_sanitize_filename_guarantees "..").2.1⟩

/-! ### Claims C4, C5, C7: the fields of a serialized thruster -/

/-- The conditional `Location` part contributes nothing to a filter for a
tag other than `Location`. -/
theorem filter_tag_thrusterLocPart (pyStr : ℝ → String) (d : ThrusterData) (t : String)
    (h : ("Location" == t) = false) :
    (thrusterLocPart pyStr d).filter (fun c => c.tag == t) = [] := by
  unfold thrusterLocPart
  by_cases ht : pyListTruthy (thrusterFinalLoc d) = true <;> simp [ht, xleaf, XmlElem.tag, h]

/-- C5: every attribute element of a thruster is emitted even when its key
is absent, with the hardcoded defaults (`Thrust N=40.0`,
`SpecificImpulse Seconds=220.0`, `MinimumPulseTime Seconds=0.008`,
`VolumetricExhaust Id='ApolloRCS'`,
`SoundEvent SoundId='DefaultRcsThruster'`, `Id='Unnamed'`), in both copies
of the serializer. -/
theorem C5_thruster_attribute_defaults (pyStr : ℝ → String) (d : ThrusterData)
    (hn : d.name = none) (ht : d.thrust_n = none) (hi : d.specific_impulse_seconds = none)
    (hm : d.minimum_pulse_time_seconds = none) (hv : d.volumetric_exhaust_id = none)
    (hs : d.sound_event_on = none) :
    ∀ el ∈ [thrusterElemUtils pyStr d, thrusterElemInit pyStr d],
      el.attribs = [("Id", "Unnamed")]
      ∧ el.children.filter (fun c => c.tag == "Thrust") = [xleaf "Thrust" [("N", pyStr 40.0)]]
      ∧ el.children.filter (fun c => c.tag == "SpecificImpulse")
          = [xleaf "SpecificImpulse" [("Seconds", pyStr 220.0)]]
      ∧ el.children.filter (fun c => c.tag == "MinimumPulseTime")
          = [xleaf "MinimumPulseTime" [("Seconds", pyStr 0.008)]]
      ∧ el.children.filter (fun c => c.tag == "VolumetricExhaust")
          = [xleaf "VolumetricExhaust" [("Id", "ApolloRCS")]]
      ∧ el.children.filter (fun c => c.tag == "SoundEvent")
          = [xleaf "SoundEvent" [("Action", "On"), ("SoundId", "DefaultRcsThruster")]] := by
  have main : ∀ dir : ℝ × ℝ × ℝ,
      (XmlElem.mk "Thruster" [("Id", d.name.getD "Unnamed")] none
        (thrusterLocPart pyStr d
          ++ [exhaustElem pyStr dir, xleaf "ControlMap" [("CSV", controlMapCSV d)]]
          ++ thrusterAttrElems pyStr d) none).attribs = [("Id", "Unnamed")]
      ∧ ∀ t : String, ∀ tl : List XmlElem,
          (thrusterAttrElems pyStr d).filter (fun c => c.tag == t) = tl →
          ("Location" == t) = false → ("ExhaustDirection" == t) = false →
          ("ControlMap" == t) = false →
          (XmlElem.mk "Thruster" [("Id", d.name.getD "Unnamed")] none
            (thrusterLocPart pyStr d
              ++ [exhaustElem pyStr dir, xleaf "ControlMap" [("CSV", controlMapCSV d)]]
              ++ thrusterAttrElems pyStr d) none).children.filter (fun c => c.tag == t) = tl := by
    intro dir
    constructor
    · simp [XmlElem.attribs, hn]
    · intro t tl htl h1 h2 h3
      have hmid : List.filter (fun c => c.tag == t)
          [exhaustElem pyStr dir, xleaf "ControlMap" [("CSV", controlMapCSV d)]] = [] := by
        simp [List.filter, exhaustElem, xleaf, XmlElem.tag, h2, h3]
      simp only [XmlElem.children, List.filter_append, hmid,
        filter_tag_thrusterLocPart pyStr d t h1, List.nil_append, List.append_nil]
      exact htl
  intro el hel
  have hcase : el = thrusterElemUtils pyStr d ∨ el = thrusterElemInit pyStr d := by
    simpa using hel
  have hattrs : ∀ t : String, ∀ tl : List XmlElem,
      (thrusterAttrElems pyStr d).filter (fun c => c.tag == t) = tl →
      ("Location" == t) = false → ("ExhaustDirection" == t) = false →
      ("ControlMap" == t) = false →
      el.children.filter (fun c => c.tag == t) = tl := by
    rcases hcase with h | h <;> subst h
    · exact (main (thrusterExDirUtils d)).2
    · exact (main (thrusterExDirInit d)).2
  have hattr0 : el.attribs = [("Id", "Unnamed")] := by
    rcases hcase with h | h <;> subst h
    · exact (main (thrusterExDirUtils d)).1
    · exact (main (thrusterExDirInit d)).1
  refine ⟨hattr0, ?_, ?_, ?_, ?_, ?_⟩
  · exact hattrs "Thrust" _ (by simp [thrusterAttrElems, xleaf, XmlElem.tag, ht])
      (by decide) (by decide) (by decide)
  · exact hattrs "SpecificImpulse" _ (by simp [thrusterAttrElems, xleaf, XmlElem.tag, hi])
      (by decide) (by decide) (by decide)
  · exact hattrs "MinimumPulseTime" _ (by simp [thrusterAttrElems, xleaf, XmlElem.tag, hm])
      (by decide) (by decide) (by decide)
  · exact hattrs "VolumetricExhaust" _ (by simp [thrusterAttrElems, xleaf, XmlElem.tag, hv])
      (by decide) (by decide) (by decide)
  · exact hattrs "SoundEvent" _ (by simp [thrusterAttrElems, xleaf, XmlElem.tag, hs])
      (by decide) (by decide) (by decide)

/-- A thruster dict with every key absent. -/
def emptyThrusterDict : ThrusterData :=
  ⟨none, none, none, none, none, none, none, none, none, none, none⟩

/-- C5 witness: the empty dict gets `Id='Unnamed'` and the default
`Thrust` element. -/
theorem C5_thruster_attribute_defaults_witness :
    (thrusterElemUtils (fun _ => "num") emptyThrusterDict).attribs = [("Id", "Unnamed")]
    ∧ (thrusterElemUtils (fun _ => "num") emptyThrusterDict).children.filter
        (fun c => c.tag == "Thrust") = [xleaf "Thrust" [("N", "num")]] :=
  ⟨(C5_thruster_attribute_defaults (fun _ => "num") emptyThrusterDict rfl rfl rfl rfl rfl rfl
      _ (List.mem_cons_self _ _)).1,
   (C5_thruster_attribute_defaults (fun _ => "num") emptyThrusterDict rfl rfl rfl rfl rfl rfl
      _ (List.mem_cons_self _ _)).2.1⟩

/-- For any direction value, filtering a thruster element's children for
tag `Location` leaves exactly the conditional `Location` part. -/
theorem filter_location_children (pyStr : ℝ → String) (d : ThrusterData) (dir : ℝ × ℝ × ℝ) :
    ((XmlElem.mk "Thruster" [("Id", d.name.getD "Unnamed")] none
        (thrusterLocPart pyStr d
          ++ [exhaustElem pyStr dir, xleaf "ControlMap" [("CSV", controlMapCSV d)]]
          ++ thrusterAttrElems pyStr d) none).children.filter (fun c => c.tag == "Location"))
      = (thrusterLocPart pyStr d).filter (fun c => c.tag == "Location") := by
  simp [XmlElem.children, List.filter_append, List.filter, exhaustElem, xleaf,
    XmlElem.tag, thrusterAttrElems]

/-- C4: with non-empty `location = [lx, ly, lz]` and
`fx_location = [fx, fy, fz]` the `Location` element carries the
componentwise sums; if either value is empty or `None` the unmodified
`location` value is used; and no `Location` element is written when that
value is falsy.  Both copies of the serializer agree. -/
theorem C4_thruster_location_sum (pyStr : ℝ → String) :
    (∀ (d : ThrusterData) (lx ly lz fx fy fz : ℝ),
      d.location = some (some [lx, ly, lz]) →
      d.fx_location = some (some [fx, fy, fz]) →
      ∀ el ∈ [thrusterElemUtils pyStr d, thrusterElemInit pyStr d],
        el.children.filter (fun c => c.tag == "Location")
          = [xleaf "Location"
              [("X", pyStr (lx + fx)), ("Y", pyStr (ly + fy)), ("Z", pyStr (lz + fz))]])
    ∧ (∀ d : ThrusterData,
        (pyListTruthy (d.location.getD (some [0, 0, 0])) = false
          ∨ pyListTruthy (d.fx_location.getD (some [0, 0, 0])) = false) →
        thrusterFinalLoc d = d.location.getD (some [0, 0, 0]))
    ∧ (∀ d : ThrusterData, pyListTruthy (thrusterFinalLoc d) = false →
        ∀ el ∈ [thrusterElemUtils pyStr d, thrusterElemInit pyStr d],
          el.children.filter (fun c => c.tag == "Location") = []) := by
  refine ⟨?_, ?_, ?_⟩
  · intro d lx ly lz fx fy fz h1 h2 el hel
    have hfinal : thrusterFinalLoc d = some [lx + fx, ly + fy, lz + fz] := by
      simp [thrusterFinalLoc, h1, h2, pyListTruthy]
    have hpart : (thrusterLocPart pyStr d).filter (fun c => c.tag == "Location")
        = [xleaf "Location"
            [("X", pyStr (lx + fx)), ("Y", pyStr (ly + fy)), ("Z", pyStr (lz + fz))]] := by
      simp [thrusterLocPart, hfinal, pyListTruthy, List.filter, xleaf, XmlElem.tag]
    have hcase : el = thrusterElemUtils pyStr d ∨ el = thrusterElemInit pyStr d := by
      simpa using hel
    rcases hcase with h | h <;> subst h
    · unfold thrusterElemUtils
      rw [filter_location_children, hpart]
    · unfold thrusterElemInit
      rw [filter_location_children, hpart]
  · intro d h
    unfold thrusterFinalLoc
    rcases h with h | h <;> simp [h]
  · intro d h el hel
    have hpart : (thrusterLocPart pyStr d).filter (fun c => c.tag == "Location") = [] := by
      simp [thrusterLocPart, h]
    have hcase : el = thrusterElemUtils pyStr d ∨ el = thrusterElemInit pyStr d := by
      simpa using hel
    rcases hcase with h' | h' <;> subst h'
    · unfold thrusterElemUtils
      rw [filter_location_children, hpart]
    · unfold thrusterElemInit
      rw [filter_location_children, hpart]

/-- Dict with both vectors present, for the C4 witness. -/
noncomputable def locSumDict : ThrusterData :=
  ⟨none, some (some [1, 2, 3]), some (some [10, 20, 30]), none, none, none, none, none, none,
    none, none⟩

/-- Dict with an empty `fx_location`, for the C4 witness. -/
noncomputable def locOnlyDict : ThrusterData :=
  ⟨none, some (some [1, 2, 3]), some (some []), none, none, none, none, none, none, none, none⟩

/-- Dict whose `location` is Python `None`, for the C4 witness. -/
def locNoneDict : ThrusterData :=
  ⟨none, some none, none, none, none, none, none, none, none, none, none⟩

/-- C4 witness: the three location behaviors at concrete dicts. -/
theorem C4_thruster_location_sum_witness :
    ((thrusterElemUtils (fun _ => "num") locSumDict).children.filter
        (fun c => c.tag == "Location")
      = [xleaf "Location" [("X", "num"), ("Y", "num"), ("Z", "num")]])
    ∧ thrusterFinalLoc locOnlyDict = some [1, 2, 3]
    ∧ (thrusterElemUtils (fun _ => "num") locNoneDict).children.filter
        (fun c => c.tag == "Location") = [] :=
  ⟨(C4_thruster_location_sum (fun _ => "num")).1 locSumDict 1 2 3 10 20 30 rfl rfl
      _ (List.mem_cons_self _ _),
   (C4_thruster_location_sum (fun _ => "num")).2.1 locOnlyDict (Or.inr rfl),
   (C4_thruster_location_sum (fun _ => "num")).2.2 locNoneDict rfl _ (List.mem_cons_self _ _)⟩

/-- Claim-side label selection for C7: the labels whose flag among the
first six entries of the flag list is true, in index order. -/
def selectedLabels (flags : List Bool) (labels : List String) : List String :=
  ((flags.take 6).zip labels).filterMap (fun p => if p.1 then some p.2 else none)

/-- The enumerate-and-filter loop of the serializer equals zipping the
flags with the remaining labels. -/
theorem csvCollect_eq_zip (labels : List String) (flags : List Bool) :
    ∀ i : Nat, csvCollect labels i flags
      = (flags.zip (labels.drop i)).filterMap (fun p => if p.1 then some p.2 else none) := by
  induction flags with
  | nil => intro i; rfl
  | cons b bs ih =>
    intro i
    cases hd : labels.drop i with
    | nil =>
      have hle : labels.length ≤ i := List.drop_eq_nil_iff.1 hd
      have hcond : ¬(b ∧ i < labels.length) := by
        rintro ⟨-, hlt⟩; omega
      have hd1 : labels.drop (i + 1) = [] := List.drop_eq_nil_iff.2 (by omega)
      simp [csvCollect, hcond, ih (i + 1), hd1]
    | cons a t =>
      have hlt : i < labels.length := List.length_lt_of_drop_ne_nil (by rw [hd]; simp)
      have hget : labels.get? i = some a := by
        rw [List.get?_eq_getElem?, ← List.head?_drop, hd]; rfl
      have hd1 : labels.drop (i + 1) = t := by
        have hdd := List.drop_drop 1 i labels
        rw [hd] at hdd
        simpa using hdd.symm
      by_cases hb : b
      · have hgetElem : labels[i] = a := by
          have h' : labels[i]? = some a := by rw [← List.get?_eq_getElem?]; exact hget
          rw [List.getElem?_eq_getElem hlt] at h'
          exact Option.some.inj h'
        simp [csvCollect, hb, hlt, hget, hgetElem, ih (i + 1), hd1, List.filterMap_cons]
      · simp [csvCollect, hb, ih (i + 1), hd1, List.filterMap_cons]

/-- Taking more elements than the other list's length does not change a
zip. -/
theorem take_zip_of_length_le {α β : Type} (n : Nat) :
    ∀ (l₁ : List α) (l₂ : List β), l₂.length ≤ n → (l₁.take n).zip l₂ = l₁.zip l₂ := by
  induction n with
  | zero =>
    intro l₁ l₂ h
    have h2 : l₂ = [] := by cases l₂ <;> simp_all
    simp [h2]
  | succ n ih =>
    intro l₁ l₂ h
    cases l₁ with
    | nil => rfl
    | cons a t =>
      cases l₂ with
      | nil => simp
      | cons b u => simp [List.take_succ_cons, ih t u (by simpa using h)]

/-- C7: every thruster element carries exactly one `ControlMap` child; its
`CSV` value is the comma-joined concatenation of the translation labels
whose flag among the first six `control_map_translation` entries is true
followed by the likewise-selected rotation labels, and it is empty when
both lists are absent. -/
theorem C7_control_map_csv (pyStr : ℝ → String) (d : ThrusterData) :
    (∀ el ∈ [thrusterElemUtils pyStr d, thrusterElemInit pyStr d],
      el.children.filter (fun c => c.tag == "ControlMap")
        = [xleaf "ControlMap" [("CSV", controlMapCSV d)]])
    ∧ controlMapCSV d = String.intercalate ","
        (selectedLabels ((d.control_map_translation.getD (some [])).getD []) transLabels
          ++ selectedLabels ((d.control_map_rotation.getD (some [])).getD []) rotLabels)
    ∧ (d.control_map_translation = none → d.control_map_rotation = none →
        controlMapCSV d = "") := by
  refine ⟨?_, ?_, ?_⟩
  · intro el hel
    have hfilter : ∀ dir : ℝ × ℝ × ℝ,
        ((XmlElem.mk "Thruster" [("Id", d.name.getD "Unnamed")] none
          (thrusterLocPart pyStr d
            ++ [exhaustElem pyStr dir, xleaf "ControlMap" [("CSV", controlMapCSV d)]]
            ++ thrusterAttrElems pyStr d) none).children.filter (fun c => c.tag == "ControlMap"))
          = [xleaf "ControlMap" [("CSV", controlMapCSV d)]] := by
      intro dir
      have hloc : (thrusterLocPart pyStr d).filter (fun c => c.tag == "ControlMap") = [] :=
        filter_tag_thrusterLocPart pyStr d "ControlMap" (by decide)
      have hattr : (thrusterAttrElems pyStr d).filter (fun c => c.tag == "ControlMap") = [] := by
        simp [thrusterAttrElems, xleaf, XmlElem.tag]
      have hmid : List.filter (fun c => c.tag == "ControlMap")
          [exhaustElem pyStr dir, xleaf "ControlMap" [("CSV", controlMapCSV d)]]
          = [xleaf "ControlMap" [("CSV", controlMapCSV d)]] := by
        simp [List.filter, exhaustElem, xleaf, XmlElem.tag]
      simp only [XmlElem.children, List.filter_append, hloc, hattr, hmid, List.nil_append,
        List.append_nil]
    have hcase : el = thrusterElemUtils pyStr d ∨ el = thrusterElemInit pyStr d := by
      simpa using hel
    rcases hcase with h | h <;> subst h
    · unfold thrusterElemUtils
      exact hfilter _
    · unfold thrusterElemInit
      exact hfilter _
  · have hside : ∀ (v : Option (List Bool)) (labels : List String), labels.length = 6 →
        (if pyListTruthy v = true then csvCollect labels 0 (v.getD []) else [])
          = selectedLabels (v.getD []) labels := by
      intro v labels hlen
      by_cases hv : pyListTruthy v = true
      · rw [if_pos hv, csvCollect_eq_zip labels _ 0, List.drop_zero, selectedLabels,
          take_zip_of_length_le 6 _ _ (by omega)]
      · rw [if_neg hv]
        have hnil : v.getD [] = [] := by
          cases v with
          | none => rfl
          | some l =>
            cases l with
            | nil => rfl
            | cons x xs => simp [pyListTruthy] at hv
        rw [hnil]; rfl
    simp only [controlMapCSV]
    rw [hside _ transLabels rfl, hside _ rotLabels rfl]
    by_cases hp : (selectedLabels ((d.control_map_translation.getD (some [])).getD []) transLabels
        ++ selectedLabels ((d.control_map_rotation.getD (some [])).getD []) rotLabels).isEmpty = true
    · rw [if_pos hp]
      rw [List.isEmpty_iff.1 hp]
      rfl
    · rw [if_neg hp]
  · intro h1 h2
    simp [controlMapCSV, h1, h2, pyListTruthy]

/-- Dict with seven translation flags and two rotation flags, for the C7
witness. -/
def ctrlDict : ThrusterData :=
  ⟨none, none, none, none, some (some [true, false, true, false, false, false, true]),
    some (some [false, true]), none, none, none, none, none⟩

/-- C7 witness: the selected labels of `ctrlDict`, with the seventh
translation flag ignored, joined by commas. -/
theorem C7_control_map_csv_witness :
    controlMapCSV ctrlDict = String.intercalate ","
      (selectedLabels [true, false, true, false, false, false, true] transLabels
        ++ selectedLabels [false, true] rotLabels)
    ∧ controlMapCSV ctrlDict = "TranslateForward,TranslateLeft,PitchDown"
    ∧ controlMapCSV emptyThrusterDict = "" :=
  ⟨(C7_control_map_csv (fun _ => "num") ctrlDict).2.1,
   by decide,
   (C7_control_map_csv (fun _ => "num") emptyThrusterDict).2.2 rfl rfl⟩

/-! ### Claim C1: the engine exhaust direction versus the rotated forward
axis

Rotating the local `+X` axis by an `'XYZ'` Euler rotation gives
`(cos ry · cos rz, cos ry · sin rz, -sin ry)`; the serializer emits
`+sin ry` as the Z component instead, contradicting its own comment
("Forward vector (+X in local space) transformed by rotation").  At
rotation `(0, π/2, 0)` the code emits `(0, 0, 1)` while the rotated
forward axis is `(0, 0, -1)`. -/

/-- Engine dict whose rotation is `(0, π/2, 0)`. -/
noncomputable def engineBugDict : EngineData :=
  ⟨none, some none, some (some [0, Real.pi / 2, 0]), none, none, none, none, none⟩

/-- C1: at Euler rotation `(0, π/2, 0)` the emitted `ExhaustDirection` is
`(0, 0, 1)`, but the local `+X` axis rotated by that `'XYZ'` Euler
rotation is `(0, 0, -1)`: the code negates the claimed Z component. -/
theorem C1_engine_exhaust_direction_bug :
    engineExDir engineBugDict = (0, 0, 1)
    ∧ rotXYZ 0 (Real.pi / 2) 0 (1, 0, 0) = (0, 0, -1)
    ∧ ((1 : ℝ) ≠ -1)
    ∧ ∀ pyStr : ℝ → String,
        (engineElem pyStr engineBugDict).children.filter (fun c => c.tag == "ExhaustDirection")
          = [xleaf "ExhaustDirection" [("X", pyStr 0), ("Y", pyStr 0), ("Z", pyStr 1)]] := by
  have h1 : engineExDir engineBugDict = (0, 0, 1) := by
    simp [engineExDir, engineBugDict, pyListTruthy, trigDir, List.getD, Real.cos_pi_div_two,
      Real.sin_pi_div_two]
  refine ⟨h1, ?_, by norm_num, ?_⟩
  · simp [rotXYZ, rotX, rotY, rotZ, Real.cos_pi_div_two, Real.sin_pi_div_two]
  · intro pyStr
    have hloc : engineLocPart pyStr engineBugDict = [] := by
      simp [engineLocPart, engineBugDict, pyListTruthy]
    unfold engineElem
    rw [h1, hloc]
    simp [List.filter, exhaustElem, xleaf, XmlElem.tag, XmlElem.children]

/-! ### Claim C2: the two `thrusters_list_to_xml_str` implementations -/

/-- Thruster dict whose rotation is the empty list (so both direction
computations fall back to `[1, 0, 0]`) and whose location is `None`. -/
def cexThrusterDict : ThrusterData :=
  ⟨none, some none, none, some (some []), none, none, none, none, none, none, none⟩

/-- C2 counterexample: on the one-element list `[cexThrusterDict]` (and
the rendering `str = fun _ => "0"`) the two implementations produce
different strings — `src/utils.py` pretty-prints and CRLF-converts, while
`src/__init__.py` does not — refuting the claimed equivalence. -/
theorem C2_thruster_serializers_counterexample :
    thrusters_list_to_xml_str_utils (fun _ => "0") [cexThrusterDict]
      ≠ thrusters_list_to_xml_str_init (fun _ => "0") [cexThrusterDict] := by
  decide

/-- The two copies of `_thruster_dict_to_xml_element` build identical
elements when `rotation` is the empty list: they differ only in the
exhaust-direction computation, and both then take the `[1, 0, 0]`
fallback. -/
theorem thrusterElem_agree_of_rotation_empty (pyStr : ℝ → String) (d : ThrusterData)
    (h : d.rotation = some (some [])) :
    thrusterElemUtils pyStr d = thrusterElemInit pyStr d := by
  unfold thrusterElemUtils thrusterElemInit
  have h1 : thrusterExDirUtils d = (1, 0, 0) := by
    simp [thrusterExDirUtils, h, pyListTruthy]
  have h2 : thrusterExDirInit d = (1, 0, 0) := by
    simp [thrusterExDirInit, h, pyListTruthy]
  rw [h1, h2]

/-- Folding element-appends over pointwise-equal element builders gives
the same tree. -/
theorem foldl_appendChild_congr (f g : ThrusterData → XmlElem) (l : List ThrusterData)
    (h : ∀ d ∈ l, f d = g d) :
    ∀ r : XmlElem, l.foldl (fun r d => r.appendChild (f d)) r
      = l.foldl (fun r d => r.appendChild (g d)) r := by
  induction l with
  | nil => intro r; rfl
  | cons d t ih =>
    intro r
    rw [List.foldl_cons, List.foldl_cons, h d (by simp)]
    exact ih (fun x hx => h x (by simp [hx])) _

/-- Thruster dict whose rotation is the (truthy) zero triple `[0, 0, 0]`. -/
noncomputable def zeroRotThrusterDict : ThrusterData :=
  ⟨none, some none, none, some (some [0, 0, 0]), none, none, none, none, none, none, none⟩

/-- C2 (amended): the implementations are not equivalent; their direction
computations already disagree at the zero rotation `[0, 0, 0]`, where the
`utils` copy (mathutils-rotated, normalized local `+Z`) computes
`(0, 0, 1)` while the `__init__` copy (trig formula) computes
`(1, 0, 0)`.  When every dict's rotation is the empty list the two build
the identical element tree, and the outputs then differ exactly by the
`utils` pretty-printing: the `__init__` version serializes the shared
tree compactly while the `utils` version serializes it indented with LF
replaced by CR/LF. -/
theorem C2_thruster_serializers_amended (pyStr : ℝ → String) (l : List ThrusterData)
    (h : ∀ d ∈ l, d.rotation = some (some [])) :
    (thrusterExDirUtils zeroRotThrusterDict = (0, 0, 1)
      ∧ thrusterExDirInit zeroRotThrusterDict = (1, 0, 0)
      ∧ (((0 : ℝ), (0 : ℝ), (1 : ℝ)) : ℝ × ℝ × ℝ) ≠ ((1 : ℝ), (0 : ℝ), (0 : ℝ)))
    ∧ buildThrustersRootInit pyStr l = buildThrustersRootUtils pyStr l
    ∧ thrusters_list_to_xml_str_init pyStr l
        = String.mk (serializeElem (buildThrustersRootUtils pyStr l))
    ∧ thrusters_list_to_xml_str_utils pyStr l
        = String.mk (pyReplaceLF (serializeElem (indentElem 0 (buildThrustersRootUtils pyStr l)))) := by
  have heq : buildThrustersRootInit pyStr l = buildThrustersRootUtils pyStr l := by
    unfold buildThrustersRootInit buildThrustersRootUtils
    exact foldl_appendChild_congr _ _ l
      (fun d hd => (thrusterElem_agree_of_rotation_empty pyStr d (h d hd)).symm) _
  refine ⟨⟨?_, ?_, ?_⟩, heq, ?_, rfl⟩
  · norm_num [thrusterExDirUtils, zeroRotThrusterDict, pyListTruthy, rotXYZ, rotX, rotY, rotZ,
      Real.sqrt_one]
  · norm_num [thrusterExDirInit, zeroRotThrusterDict, pyListTruthy, trigDir, List.getD]
  · norm_num [Prod.ext_iff]
  · unfold thrusters_list_to_xml_str_init
    rw [heq]

/-- C2 witness for the amended statement: the direction divergence at the
zero rotation, and the tree agreement on the singleton list over
`cexThrusterDict`, whose rotation is the empty list. -/
theorem C2_thruster_serializers_amended_witness :
    thrusterExDirUtils zeroRotThrusterDict = (0, 0, 1)
    ∧ thrusterExDirInit zeroRotThrusterDict = (1, 0, 0)
    ∧ buildThrustersRootInit (fun _ => "0") [cexThrusterDict]
        = buildThrustersRootUtils (fun _ => "0") [cexThrusterDict] :=
  ⟨(C2_thruster_serializers_amended (fun _ => "0") [cexThrusterDict]
      (by intro d hd; rw [List.mem_singleton] at hd; subst hd; rfl)).1.1,
   (C2_thruster_serializers_amended (fun _ => "0") [cexThrusterDict]
      (by intro d hd; rw [List.mem_singleton] at hd; subst hd; rfl)).1.2.1,
   (C2_thruster_serializers_amended (fun _ => "0") [cexThrusterDict]
      (by intro d hd; rw [List.mem_singleton] at hd; subst hd; rfl)).2.1⟩

/-! ### Claim C6: shape of the `utils` thruster export -/

/-- Folding element-appends records the tag and appends one child per
input, in order. -/
theorem foldl_appendChild_spec (f : ThrusterData → XmlElem) (l : List ThrusterData) :
    ∀ r : XmlElem, (l.foldl (fun r d => r.appendChild (f d)) r).tag = r.tag
      ∧ (l.foldl (fun r d => r.appendChild (f d)) r).children = r.children ++ l.map f := by
  induction l with
  | nil => intro r; simp
  | cons d t ih =>
    intro r
    have hi := ih (r.appendChild (f d))
    cases r with
    | mk tg a tx cs tl =>
      refine ⟨?_, ?_⟩
      · rw [List.foldl_cons, hi.1]; rfl
      · rw [List.foldl_cons, hi.2]
        simp [XmlElem.appendChild, XmlElem.children]

/-- The segments of a character list between newlines (Python
`s.split('\n')`). -/
def splitLF : List Char → List (List Char)
  | [] => [[]]
  | c :: rest =>
    if c = '\n' then [] :: splitLF rest
    else
      match splitLF rest with
      | [] => [[c]]
      | g :: gs => (c :: g) :: gs

/-- Join segments with a separator (Python `sep.join(segments)`). -/
def joinWith (sep : List Char) : List (List Char) → List Char
  | [] => []
  | g :: gs => g ++ (gs.map (fun h => sep ++ h)).flatten

theorem splitLF_ne_nil (l : List Char) : splitLF l ≠ [] := by
  cases l with
  | nil => simp [splitLF]
  | cons c rest =>
    by_cases h : c = '\n'
    · simp [splitLF, h]
    · simp only [splitLF, if_neg h]
      cases splitLF rest with
      | nil => simp
      | cons g gs => simp

/-- Replacing every LF by CR/LF is the same as joining the LF-separated
segments with CR/LF. -/
theorem pyReplaceLF_eq_joinWith (l : List Char) :
    pyReplaceLF l = joinWith ['\r', '\n'] (splitLF l) := by
  induction l with
  | nil => rfl
  | cons c rest ih =>
    obtain ⟨g, gs, hr⟩ : ∃ g gs, splitLF rest = g :: gs := by
      cases hsp : splitLF rest with
      | nil => exact absurd hsp (splitLF_ne_nil rest)
      | cons g gs => exact ⟨g, gs, rfl⟩
    have hstep : pyReplaceLF (c :: rest)
        = (if c = '\n' then ['\r', '\n'] else [c]) ++ pyReplaceLF rest := by
      simp [pyReplaceLF]
    by_cases h : c = '\n'
    · subst h
      rw [hstep, if_pos rfl, ih, hr]
      show ['\r', '\n'] ++ joinWith ['\r', '\n'] (g :: gs)
        = joinWith ['\r', '\n'] (splitLF ('\n' :: rest))
      rw [show splitLF ('\n' :: rest) = [] :: splitLF rest from by simp [splitLF], hr]
      simp [joinWith]
    · rw [hstep, if_neg h, ih, hr]
      show [c] ++ joinWith ['\r', '\n'] (g :: gs) = joinWith ['\r', '\n'] (splitLF (c :: rest))
      rw [show splitLF (c :: rest) = (c :: g) :: gs from by simp [splitLF, if_neg h, hr]]
      simp [joinWith]

/-- C6: `thrusters_list_to_xml_str` (`src/utils.py`) serializes a single
root `Thrusters` element with exactly one `Thruster` child per input
dict, in input order, and its output is the serialized (indented) text
with its LF-separated segments joined by CR/LF. -/
theorem C6_thrusters_export_shape (pyStr : ℝ → String) (l : List ThrusterData) :
    (buildThrustersRootUtils pyStr l).tag = "Thrusters"
    ∧ (buildThrustersRootUtils pyStr l).children = l.map (thrusterElemUtils pyStr)
    ∧ ((buildThrustersRootUtils pyStr l).children.all (fun c => c.tag == "Thruster")) = true
    ∧ thrusters_list_to_xml_str_utils pyStr l
        = String.mk (joinWith ['\r', '\n']
            (splitLF (serializeElem (indentElem 0 (buildThrustersRootUtils pyStr l))))) := by
  have hspec := foldl_appendChild_spec (thrusterElemUtils pyStr) l
    (XmlElem.mk "Thrusters" [] none [] none)
  have hch : (buildThrustersRootUtils pyStr l).children = l.map (thrusterElemUtils pyStr) := by
    unfold buildThrustersRootUtils
    rw [hspec.2]
    rfl
  refine ⟨?_, hch, ?_, ?_⟩
  · unfold buildThrustersRootUtils
    rw [hspec.1]
    rfl
  · rw [hch]
    refine List.all_eq_true.2 fun c hc => ?_
    obtain ⟨d, -, rfl⟩ := List.mem_map.1 hc
    rfl
  · unfold thrusters_list_to_xml_str_utils
    exact congrArg String.mk (pyReplaceLF_eq_joinWith _)

/-! ### Claim C3: the baked metadata round-trip always fails -/

theorem data_mk (l : List Char) : (String.mk l).data = l := rfl

/-- A string with a non-whitespace first and last character strips to
itself. -/
theorem pyStripChars_eq_self (l : List Char)
    (h1 : ∀ c, l.head? = some c → pyWs c = false)
    (h2 : ∀ c, l.getLast? = some c → pyWs c = false) : pyStripChars l = l := by
  unfold pyStripChars
  rw [dropWhile_eq_self_of_head pyWs l h1]
  rw [dropWhile_eq_self_of_head pyWs l.reverse
    (fun c hc => h2 c (by rwa [List.head?_reverse] at hc))]
  exact List.reverse_reverse l

/-- Shape of a serialized `metadata` document: it opens with
`<metadata`, the next character is a space or `>`, and it closes with
`>`. -/
theorem serializeElem_metaRoot (pyStr : ℝ → String) (d : List (String × PyMetaVal)) :
    ∃ rest : List Char, serializeElem (metaRoot pyStr d) = '<' :: ("metadata".data ++ rest)
      ∧ (rest.head? = some ' ' ∨ rest.head? = some '>')
      ∧ rest.getLast? = some '>' := by
  have key : ∀ children : List XmlElem,
      ∃ rest : List Char, serializeElem (XmlElem.mk "metadata" [] none children none)
        = '<' :: ("metadata".data ++ rest)
        ∧ (rest.head? = some ' ' ∨ rest.head? = some '>')
        ∧ rest.getLast? = some '>' := by
    intro children
    cases children with
    | nil => exact ⟨[' ', '/', '>'], by decide, by decide, by decide⟩
    | cons c cs =>
      refine ⟨'>' :: (serializeList (c :: cs) ++ ('<' :: '/' :: "metadata".data ++ ['>'])),
        ?_, Or.inr rfl, ?_⟩
      · simp [serializeElem, attribsChars, optTextChars, strTruthy]
      · rw [show '>' :: (serializeList (c :: cs) ++ ('<' :: '/' :: "metadata".data ++ ['>']))
            = ('>' :: (serializeList (c :: cs) ++ ('<' :: '/' :: "metadata".data))) ++ ['>'] from
            by simp]
        exact List.getLast?_concat _
  exact key _

/-- The root-tag scanner reads `metadata` off a serialized metadata
document. -/
theorem et_root_tag_metadata (rest : List Char)
    (hh : rest.head? = some ' ' ∨ rest.head? = some '>') :
    et_root_tag ('<' :: ("metadata".data ++ rest)) = some "metadata".data := by
  rcases rest with _ | ⟨c, r⟩
  · simp at hh
  · have hc : c = ' ' ∨ c = '>' := by
      rcases hh with h | h
      · exact Or.inl (by simpa using h)
      · exact Or.inr (by simpa using h)
    have hmd : "metadata".data = ['m', 'e', 't', 'a', 'd', 'a', 't', 'a'] := rfl
    rw [hmd]
    rcases hc with hc | hc <;> subst hc <;>
      simp [et_root_tag, skipProlog, pyWs, xmlNameStop, List.takeWhile, List.dropWhile]

/-- C3: `parse_meta_string` returns `None` on every string baked by
`meta_dict_to_xml_str` — the root tag is `metadata`, which matches
neither accepted root tag, and a text starting with `<` is not JSON — so
the GLB exporter always falls back to the live `thruster_props`.
`json_loads` abstracts Python's `json.loads`; the hypothesis records that
a JSON document cannot start with `<`. -/
theorem C3_baked_meta_never_reparsed (pyStr : ℝ → String) (d : List (String × PyMetaVal))
    (json_loads : String → Option PyJson)
    (hj : ∀ t : String, t.data.head? = some '<' → json_loads t = none) :
    parse_meta_string json_loads (meta_dict_to_xml_str pyStr d) = none
    ∧ glbMetaContribution json_loads (some (meta_dict_to_xml_str pyStr d)) true
        = MetaSource.fromProps := by
  obtain ⟨rest, hfull, hh, hl⟩ := serializeElem_metaRoot pyStr d
  have hdata : (meta_dict_to_xml_str pyStr d).data = '<' :: ("metadata".data ++ rest) := by
    unfold meta_dict_to_xml_str
    rw [data_mk, hfull]
  have hlast : ('<' :: ("metadata".data ++ rest)).getLast? = some '>' := by
    rw [show ('<' :: ("metadata".data ++ rest)) = ('<' :: "metadata".data) ++ rest from by simp,
      List.getLast?_append, hl]
    rfl
  have hstrip : pyStripChars (meta_dict_to_xml_str pyStr d).data
      = (meta_dict_to_xml_str pyStr d).data := by
    apply pyStripChars_eq_self
    · intro c hc
      rw [hdata] at hc
      have : c = '<' := by simpa using hc.symm
      subst this; decide
    · intro c hc
      rw [hdata, hlast] at hc
      have : c = '>' := by simpa using hc.symm
      subst this; decide
  have hne : (meta_dict_to_xml_str pyStr d).data.isEmpty = false := by
    rw [hdata]; rfl
  have hroot : et_root_tag (meta_dict_to_xml_str pyStr d).data = some "metadata".data := by
    rw [hdata]; exact et_root_tag_metadata rest hh
  have hmkdata : String.mk (meta_dict_to_xml_str pyStr d).data = meta_dict_to_xml_str pyStr d :=
    rfl
  have hjs : json_loads (String.mk (pyStripChars (meta_dict_to_xml_str pyStr d).data)) = none := by
    rw [hstrip, hmkdata]
    exact hj _ (by rw [hdata]; rfl)
  have hparse : parse_meta_string json_loads (meta_dict_to_xml_str pyStr d) = none := by
    unfold parse_meta_string
    rw [hne]
    simp only [Bool.false_eq_true, if_false, data_mk, hstrip, hroot]
    rw [if_pos (by rw [hdata]; rfl)]
    rw [if_neg (by decide), if_neg (by decide)]
    rw [hmkdata, hj _ (by rw [hdata]; rfl)]
    rfl
  refine ⟨hparse, ?_⟩
  simp [glbMetaContribution, hparse, hne]

/-- C3 witness: the empty metadata dict, with a `json_loads` that fails on
everything. -/
theorem C3_baked_meta_never_reparsed_witness :
    parse_meta_string (fun _ => none) (meta_dict_to_xml_str (fun _ => "v") []) = none
    ∧ glbMetaContribution (fun _ => none) (some (meta_dict_to_xml_str (fun _ => "v") [])) true
        = MetaSource.fromProps :=
  C3_baked_meta_never_reparsed (fun _ => "v") [] (fun _ => none) (fun _ _ => rfl)

end KittenExport
